import Mathlib

/-!
Shallow embedding of the nfanon core (src/nfanon/nfanon.c) and proofs about it.

The record area of a data block is modelled as a `List Nat` of bytes in the
order they sit in memory; multi-byte fields are read and written little-endian
(host order on the platforms the tool targets; the walker never byte-swaps).
The CryptoPAn permutation itself is external to the file under scrutiny, so the
record walker is parameterised by the pair of pure functions `anon32`/`anon128`
(spec section 4.1: deterministic, pure, read-only after initialisation).
Fallible paths (`exit(255)`) are modelled with `Except (Nat × String)`, the
`Nat` being the process exit code and the `String` the log message.
-/

namespace Nfanon

/-- Read one byte; out-of-range reads yield 0. -/
def read8 (bs : List Nat) (i : Nat) : Nat := bs.getD i 0

/-- Store one byte (a C `uint8_t` store keeps the low 8 bits). -/
def write8 (bs : List Nat) (i v : Nat) : List Nat := bs.set i (v % 256)

/-- Little-endian `uint16_t` load. -/
def read16 (bs : List Nat) (i : Nat) : Nat := read8 bs i + 256 * read8 bs (i + 1)

/-- Little-endian `uint32_t` load. -/
def read32 (bs : List Nat) (i : Nat) : Nat := read16 bs i + 65536 * read16 bs (i + 2)

/-- Little-endian `uint64_t` load. -/
def read64 (bs : List Nat) (i : Nat) : Nat := read32 bs i + 4294967296 * read32 bs (i + 4)

/-- Little-endian `uint16_t` store. -/
def write16 (bs : List Nat) (i v : Nat) : List Nat := write8 (write8 bs i v) (i + 1) (v / 256)

/-- Little-endian `uint32_t` store. -/
def write32 (bs : List Nat) (i v : Nat) : List Nat := write16 (write16 bs i v) (i + 2) (v / 65536)

/-- Little-endian `uint64_t` store. -/
def write64 (bs : List Nat) (i v : Nat) : List Nat := write32 (write32 bs i v) (i + 4) (v / 4294967296)

/-- The CryptoPAn primitive of panonymizer.h, kept abstract: `anonymize` on a
32-bit address and `anonymize_v6` on a 128-bit address given as two 64-bit
words.  Spec section 4.1: both are pure and deterministic once initialised. -/
structure AnonFuns where
  anon32 : Nat → Nat
  anon128 : Nat → Nat → Nat × Nat

/- Extension identifiers of nfxV3.h (the header is not part of the sources
under scrutiny).  Modelled from the spec: the mutation table of section 3
lists the extension kinds; the identifiers below are the enumeration tags in
declaration order, only their distinctness matters here. -/

abbrev EXnull : Nat := 0
abbrev EXgenericFlowID : Nat := 1
abbrev EXipv4FlowID : Nat := 2
abbrev EXipv6FlowID : Nat := 3
abbrev EXflowMiscID : Nat := 4
abbrev EXcntFlowID : Nat := 5
abbrev EXvLanID : Nat := 6
abbrev EXasRoutingID : Nat := 7
abbrev EXbgpNextHopV4ID : Nat := 8
abbrev EXbgpNextHopV6ID : Nat := 9
abbrev EXipNextHopV4ID : Nat := 10
abbrev EXipNextHopV6ID : Nat := 11
abbrev EXipReceivedV4ID : Nat := 12
abbrev EXipReceivedV6ID : Nat := 13
abbrev EXmplsLabelID : Nat := 14
abbrev EXmacAddrID : Nat := 15
abbrev EXasAdjacentID : Nat := 16
abbrev EXlatencyID : Nat := 17
abbrev EXnselCommonID : Nat := 18
abbrev EXnselXlateIPv4ID : Nat := 19
abbrev EXnselXlateIPv6ID : Nat := 20

/-- Modelled from the spec (section 3 data model): `sizeof(recordHeaderV3_t)`,
the fixed V3 record header: `record_header { type:u16, size:u16 }` followed by
the V3 sub-header (flags, number of elements, remaining header data). Field
offsets used by nfanon.c: `size` at +2, `flags` at +4, `numElements` at +6. -/
abbrev recordHeaderV3Size : Nat := 12

/-- Modelled from the spec: the ANON bit that `SetFlag(v3Record->flags,
V3_FLAG_ANON)` sets in the V3 flags word. -/
abbrev V3_FLAG_ANON : Nat := 4

/-- Modelled from the spec: `sizeof(elementHeader_t)`, i.e.
`element_header { type: u16, length: u16 }`. -/
abbrev elementHeaderSize : Nat := 4

/-- Number of payload bytes the switch of `AnonRecord` (nfanon.c:185-276)
writes for an element of the given type; 0 for the pass-through cases. -/
def extWriteSpan (t : Nat) : Nat :=
  if t = EXipv4FlowID then 8
  else if t = EXipv6FlowID then 32
  else if t = EXasRoutingID then 8
  else if t = EXbgpNextHopV4ID then 4
  else if t = EXbgpNextHopV6ID then 16
  else if t = EXipNextHopV4ID then 4
  else if t = EXipNextHopV6ID then 16
  else if t = EXipReceivedV4ID then 4
  else if t = EXipReceivedV6ID then 16
  else if t = EXasAdjacentID then 8
  else if t = EXnselXlateIPv4ID then 8
  else if t = EXnselXlateIPv6ID then 32
  else 0

/-- `x = anonymize(x)` for the `uint32_t` at offset `o`: one read, then one
store, as in e.g. `ipv4Flow->srcAddr = anonymize(ipv4Flow->srcAddr)`. -/
def anonOne32 (af : AnonFuns) (bs : List Nat) (o : Nat) : List Nat :=
  write32 bs o (af.anon32 (read32 bs o))

/-- `anonymize_v6(bs[src..], anon_ip); bs[dst..] = anon_ip`: the 128-bit value
at offset `src` is read in full into the local `anon_ip` before the two
64-bit words are stored at offset `dst`. -/
def copyAnon128 (af : AnonFuns) (bs : List Nat) (src dst : Nat) : List Nat :=
  write64 (write64 bs dst (af.anon128 (read64 bs src) (read64 bs (src + 8))).1)
    (dst + 8) (af.anon128 (read64 bs src) (read64 bs (src + 8))).2

/-- Zero the two consecutive `uint32_t` fields at offsets `o1` and `o2`,
as in the `EXasRoutingID` and `EXasAdjacentID` branches. -/
def zeroPair32 (bs : List Nat) (o1 o2 : Nat) : List Nat :=
  write32 (write32 bs o1 0) o2 0

/-- The switch body of `AnonRecord` (nfanon.c:185-276) for the element whose
header sits at offset `e`: dispatch on `elementHeader->type` and rewrite the
payload in place.  Writes are sequenced exactly as in the source; note the
`EXipv6FlowID` branch (nfanon.c:195-204), where the source anonymizes
`srcAddr`, stores it, and then derives `dstAddr` from the freshly
anonymized `srcAddr` bytes rather than from `dstAddr`. -/
def mutateElement (af : AnonFuns) (bs : List Nat) (e : Nat) : List Nat :=
  if read16 bs e = EXipv4FlowID then
    anonOne32 af (anonOne32 af bs (e + 4)) (e + 8)
  else if read16 bs e = EXipv6FlowID then
    copyAnon128 af (copyAnon128 af bs (e + 4) (e + 4)) (e + 4) (e + 20)
  else if read16 bs e = EXasRoutingID then
    zeroPair32 bs (e + 4) (e + 8)
  else if read16 bs e = EXbgpNextHopV4ID then
    anonOne32 af bs (e + 4)
  else if read16 bs e = EXbgpNextHopV6ID then
    copyAnon128 af bs (e + 4) (e + 4)
  else if read16 bs e = EXipNextHopV4ID then
    anonOne32 af bs (e + 4)
  else if read16 bs e = EXipNextHopV6ID then
    copyAnon128 af bs (e + 4) (e + 4)
  else if read16 bs e = EXipReceivedV4ID then
    anonOne32 af bs (e + 4)
  else if read16 bs e = EXipReceivedV6ID then
    copyAnon128 af bs (e + 4) (e + 4)
  else if read16 bs e = EXasAdjacentID then
    zeroPair32 bs (e + 4) (e + 8)
  else if read16 bs e = EXnselXlateIPv4ID then
    anonOne32 af (anonOne32 af bs (e + 4)) (e + 8)
  else if read16 bs e = EXnselXlateIPv6ID then
    copyAnon128 af (copyAnon128 af bs (e + 4) (e + 4)) (e + 20) (e + 20)
  else bs

/-- Log message of nfanon.c:282. -/
def eorMsg : String := "ptr error - elementHeader > eor"

/-- Log message of nfanon.c:173. -/
def unexpectedSizeMsg : String := "v3Record - unexpected size"

/-- Log message of nfanon.c:445. -/
def corruptMsg : String := "Corrupt data file. Inconsistent block size"

/-- The element loop of `AnonRecord` (nfanon.c:181-285): `n` iterations left,
cursor `e` (the absolute offset of `elementHeader`), record end `eor`.
Each iteration mutates the element, advances the cursor by
`elementHeader->length` (read, as in the source, from memory after the
mutation) and aborts the process with exit code 255 if the cursor has run
past the end of the record.  On success it returns the final byte buffer and
the final cursor. -/
def anonElems (af : AnonFuns) : Nat → Nat → Nat → List Nat → Except (Nat × String) (List Nat × Nat)
  | 0, e, _, bs => .ok (bs, e)
  | n + 1, e, eor, bs =>
    let bs1 := mutateElement af bs e
    let e1 := e + read16 bs1 (e + 2)
    if eor < e1 then .error (255, eorMsg)
    else anonElems af n e1 eor bs1

/-- Result of a successful `AnonRecord` call: the rewritten bytes, the final
value of the local byte counter `size` (header plus consumed element bytes),
and the log line emitted on the non-fatal skip path, if any. -/
structure AnonOut where
  bytes : List Nat
  consumed : Nat
  log : Option String
  deriving DecidableEq, Repr

/-- `SetFlag(v3Record->flags, V3_FLAG_ANON)` (nfanon.c:177) on the record at
offset `base`: or the ANON bit into the 16-bit flags word at `base + 4`. -/
def setAnonFlag (bs : List Nat) (base : Nat) : List Nat :=
  write16 bs (base + 4) (Nat.lor (read16 bs (base + 4)) V3_FLAG_ANON)

/-- `AnonRecord` (nfanon.c:165-287) for the V3 record starting at absolute
offset `base` of buffer `bs`: check `v3Record->size` against the header size
(log and return unmodified when too small), set the ANON flag in
`v3Record->flags`, then walk the `v3Record->numElements` extension
elements. -/
def AnonRecord (af : AnonFuns) (bs : List Nat) (base : Nat) : Except (Nat × String) AnonOut :=
  if read16 bs (base + 2) < 12 then
    -- v3Record->size < sizeof(recordHeaderV3_t): log and return unmodified
    .ok ⟨bs, 12, some unexpectedSizeMsg⟩
  else
    match anonElems af (read16 (setAnonFlag bs base) (base + 6)) (base + 12)
        (base + read16 bs (base + 2)) (setAnonFlag bs base) with
    | .error err => .error err
    | .ok (out, efin) => .ok ⟨out, efin - base, none⟩

/- Record type tags dispatched by worker() (nfanon.c:456-470).  The numeric
values live in nffile.h / nfxV3.h, outside the sources under scrutiny;
modelled from the spec (section 4.3 names the five record classes), only
their distinctness matters. -/

abbrev V3Record : Nat := 11
abbrev ExporterInfoRecordType : Nat := 7
abbrev ExporterStatRecordType : Nat := 8
abbrev SamplerRecordType : Nat := 9
abbrev NbarRecordType : Nat := 16

/-- `sizeof(record_header_t)`: `{ type: u16, size: u16 }` (spec section 3). -/
abbrev recordHeaderSize : Nat := 4

/-- The per-block record loop of `worker` (nfanon.c:441-475): `n` records
left, `i` the ordinal index of the current record, `off` the cursor into the
record area, `sumSize` the accumulated record sizes.  Each record is first
checked against the block bounds (`exit(255)` on violation, nfanon.c:444-447);
a record is transformed only when `i % numWorkers == self`, dispatching on
`record_ptr->type`; the cursor then advances by `record_ptr->size` (re-read,
as in the source, after the record was transformed). -/
def workerRecords (af : AnonFuns) (numWorkers self blockSize : Nat) :
    Nat → Nat → Nat → Nat → List Nat → Except (Nat × String) (List Nat)
  | 0, _, _, _, bs => .ok bs
  | n + 1, i, off, sumSize, bs =>
    let rsize := read16 bs (off + 2)
    -- sizeof(record_header_t) = 4
    if blockSize < sumSize + rsize ∨ rsize < 4 then
      .error (255, corruptMsg)
    else
      let step : Except (Nat × String) (List Nat) :=
        if i % numWorkers = self then
          if read16 bs off = V3Record then
            Except.map AnonOut.bytes (AnonRecord af bs off)
          else
            -- ExporterInfo / ExporterStat / Sampler / Nbar records are skipped
            -- silently, unknown types are logged and skipped: no byte changes.
            .ok bs
        else .ok bs
      match step with
      | .error err => .error err
      | .ok bs1 => workerRecords af numWorkers self blockSize n (i + 1) (off + read16 bs1 (off + 2)) (sumSize + rsize) bs1

/- Data block model (spec section 3): type tag, record count, byte length of
the record area, and the record area itself. -/

abbrev DATA_BLOCK_TYPE_2 : Nat := 2
abbrev DATA_BLOCK_TYPE_3 : Nat := 3

structure DataBlock where
  typ : Nat
  numRecords : Nat
  size : Nat
  bytes : List Nat
  deriving DecidableEq, Repr

/-- Sequential composition of the flat worker walks for workers `s ∈ ss` on
one block; the concurrent pool of nfanon.c touches disjoint records per
worker (index-modulo partition), which this sequencing realises. -/
def poolRunFlat (af : AnonFuns) (numWorkers numRecords blockSize : Nat) :
    List Nat → List Nat → Except (Nat × String) (List Nat)
  | [], bytes => .ok bytes
  | s :: ss, bytes =>
    match workerRecords af numWorkers s blockSize numRecords 0 0 0 bytes with
    | .error err => .error err
    | .ok bytes1 => poolRunFlat af numWorkers numRecords blockSize ss bytes1

/-- One iteration of the block loop of `process_data` (nfanon.c:389-407): a
block whose type is neither `DATA_BLOCK_TYPE_2` nor `DATA_BLOCK_TYPE_3` is
written through unmodified without being published to the workers; otherwise
the block is published to every worker, the pool runs, and the modified block
is written.  The boolean records whether the block was dispatched to the
worker pool. -/
def processDataBlock (af : AnonFuns) (numWorkers : Nat) (b : DataBlock) :
    Except (Nat × String) (DataBlock × Bool) :=
  if b.typ ≠ DATA_BLOCK_TYPE_2 ∧ b.typ ≠ DATA_BLOCK_TYPE_3 then
    .ok (b, false)
  else
    match poolRunFlat af numWorkers b.numRecords b.size (List.range numWorkers) b.bytes with
    | .error err => .error err
    | .ok bytes1 => .ok ({ b with bytes := bytes1 }, true)

/- Record-granular view of the worker pool, used for the determinism claim.
A block is a list of records (each a byte list); worker `s` of `N` applies
the per-record dispatch of worker() exactly to the records whose ordinal
index `i` satisfies `i % N = s` and leaves every other record untouched. -/

/-- The per-record dispatch of worker() (nfanon.c:456-470) on one record. -/
def applyRecord (af : AnonFuns) (r : List Nat) : Except (Nat × String) (List Nat) :=
  if read16 r 0 = V3Record then Except.map AnonOut.bytes (AnonRecord af r 0)
  else .ok r

/-- Total variant of `applyRecord`; on records it never aborts on, it agrees
with `applyRecord`. -/
def anonApply (af : AnonFuns) (r : List Nat) : List Nat :=
  match applyRecord af r with
  | .ok r1 => r1
  | .error _ => r

/-- Boolean success test for an `Except` value. -/
def isOkE {ε α : Type} : Except ε α → Bool
  | .ok _ => true
  | .error _ => false

/-- Worker `s` of a pool of `numWorkers` walking the records from ordinal
index `i` on: the guard `i % numWorkers = self` of nfanon.c:451 selects the
records this worker owns. -/
def workerPassRecs (af : AnonFuns) (numWorkers self : Nat) :
    Nat → List (List Nat) → Except (Nat × String) (List (List Nat))
  | _, [] => .ok []
  | i, r :: rs =>
    if i % numWorkers = self then
      match applyRecord af r with
      | .error err => .error err
      | .ok r1 => Except.map (fun l => r1 :: l) (workerPassRecs af numWorkers self (i + 1) rs)
    else Except.map (fun l => r :: l) (workerPassRecs af numWorkers self (i + 1) rs)

/-- Pure selective pass: the effect of worker `s` on the record list when no
record aborts. -/
def pureSelPass (af : AnonFuns) (numWorkers self : Nat) : Nat → List (List Nat) → List (List Nat)
  | _, [] => []
  | i, r :: rs =>
    (if i % numWorkers = self then anonApply af r else r) :: pureSelPass af numWorkers self (i + 1) rs

/-- Run the passes of the workers `ss` in sequence on the record list. -/
def poolPassGo (af : AnonFuns) (numWorkers : Nat) :
    List Nat → List (List Nat) → Except (Nat × String) (List (List Nat))
  | [], rs => .ok rs
  | s :: ss, rs =>
    match workerPassRecs af numWorkers s 0 rs with
    | .error err => .error err
    | .ok rs1 => poolPassGo af numWorkers ss rs1

/-- The whole pool of `numWorkers` workers applied to one block's records.
The concurrent workers of nfanon.c write to disjoint records (index-modulo
partition), so their combined effect is this sequential composition. -/
def poolPass (af : AnonFuns) (numWorkers : Nat) (rs : List (List Nat)) :
    Except (Nat × String) (List (List Nat)) :=
  poolPassGo af numWorkers (List.range numWorkers) rs

/- Structural well-formedness of a V3 record, following the data model of
spec section 3: each extension element carries its full payload inside its
declared length, and every element lies inside the record. -/

/-- Offsets of the `n` consecutive extension element headers starting at
offset `e`, lengths read from `bs`. -/
def elemOffs (bs : List Nat) : Nat → Nat → List Nat
  | 0, _ => []
  | n + 1, e => e :: elemOffs bs n (e + read16 bs (e + 2))

/-- Data-model conformance of the single element at offset `e` (spec
section 3: `length` is the element's total length including its header, and
the payload fields the mutation table touches lie inside it), and the element
lies inside the record, which ends at `eor`. -/
def elemWF (bs : List Nat) (eor e : Nat) : Prop :=
  4 + extWriteSpan (read16 bs e) ≤ read16 bs (e + 2) ∧
    4 ≤ read16 bs (e + 2) ∧
    e + read16 bs (e + 2) ≤ eor

instance (bs : List Nat) (eor e : Nat) : Decidable (elemWF bs eor e) := by
  unfold elemWF; infer_instance

/-- All `n` elements starting at `e` conform to the data model. -/
def walkWF (bs : List Nat) (n e eor : Nat) : Prop :=
  ∀ x ∈ elemOffs bs n e, elemWF bs eor x

instance (bs : List Nat) (n e eor : Nat) : Decidable (walkWF bs n e eor) := by
  unfold walkWF; infer_instance

/-- Byte offset `j` belongs to one of the listed mutable fields (the address
and AS payload fields of the extension kinds in the mutation table of spec
section 3) of the `n` elements starting at offset `e`. -/
def inMutRegion (bs : List Nat) (n e j : Nat) : Prop :=
  ∃ x ∈ elemOffs bs n e, x + 4 ≤ j ∧ j < x + 4 + extWriteSpan (read16 bs x)

instance (bs : List Nat) (n e j : Nat) : Decidable (inMutRegion bs n e j) := by
  unfold inMutRegion; infer_instance

/- Exit-code skeleton of main() / process_data() (nfanon.c:289-424,530-618).
File I/O itself is external (spec section 6); what is modelled is which
control path reaches which exit code and which failures are merely logged. -/

/-- Outcome flags of the start-up phase of main(): the key gate of
nfanon.c:578, the file-list setup of nfanon.c:584-585, the barrier
initialisation of nfanon.c:599-600 and the worker launch of
nfanon.c:604-608. -/
structure SetupEnv where
  haveKey : Bool
  fileListOk : Bool
  barrierOk : Bool
  workersOk : Bool
  deriving DecidableEq, Repr

/-- Environment outcomes for one input file inside process_data: whether
`OpenNewFile` succeeds (nfanon.c:318,374) and whether the final `rename`
succeeds (nfanon.c:345, consulted only in in-place mode). -/
structure FileRun where
  openOutOk : Bool
  renameOk : Bool
  deriving DecidableEq, Repr

/-- The file loop of process_data (nfanon.c:335-409), returning the failure
reports it logs and whether it reached the normal end of the loop.  Only the
normal end publishes the NULL data block to every worker and releases the
barrier (nfanon.c:412-416); every early `return` skips that termination
signal.  An output-open failure abandons the run silently (nfanon.c:319-324,
374-380); a rename failure in in-place mode is logged with errno text and
process_data returns (nfanon.c:345-348); otherwise the loop advances to the
next file. -/
def processFilesLoop (inPlace : Bool) : List FileRun → List String × Bool
  | [] => ([], true)
  | f :: rest =>
    if ¬f.openOutOk then ([], false)
    else if inPlace ∧ ¬f.renameOk then (["rename() error"], false)
    else processFilesLoop inPlace rest

/-- process_data (nfanon.c:289-424): an empty input sequence is reported and
returns at entry, before the loop and before any termination signal
(nfanon.c:294-298); otherwise the file loop runs.  The boolean records
whether the workers were signalled to terminate. -/
def processDataModel (inPlace : Bool) (files : List FileRun) : List String × Bool :=
  if files.isEmpty then (["Empty file list. No files to process"], false)
  else processFilesLoop inPlace files

/-- The exit outcome of main() (nfanon.c:530-618): each failed start-up step
calls `exit(255)`.  After process_data, main calls `WaitWorkersDone`, which
`pthread_join`s every worker (nfanon.c:614,521).  A worker leaves its
`pthread_cond_wait` inside the barrier only when the controller broadcasts
`workerCond`, and terminates only when it then reads a NULL data block
(nfanon.c:435,481); both happen only on the termination signal of
nfanon.c:412-416.  So when process_data returned early without that signal,
the joins block forever and `return 0` (nfanon.c:617) is never reached:
the outcome is `none` (the process does not exit).  Only a run whose file
loop completed normally exits 0.  (A corruption `exit(255)` from a worker
is modelled separately by `workerRecords`.) -/
def nfanonExit (env : SetupEnv) (inPlace : Bool) (files : List FileRun) : Option Nat :=
  if ¬env.haveKey then some 255
  else if ¬env.fileListOk then some 255
  else if ¬env.barrierOk then some 255
  else if ¬env.workersOk then some 255
  else if (processDataModel inPlace files).2 then some 0
  else none

/- Key handling of main() (nfanon.c:544-551,578-582).  `ParseCryptoPAnKey`
lives outside the sources under scrutiny. -/

/-- Value of one hexadecimal digit given as an ASCII code. -/
def hexDigit (c : Nat) : Option Nat :=
  if 48 ≤ c ∧ c ≤ 57 then some (c - 48)
  else if 97 ≤ c ∧ c ≤ 102 then some (c - 87)
  else if 65 ≤ c ∧ c ≤ 70 then some (c - 55)
  else none

/-- Decode pairs of hex digits into bytes. -/
def hexPairs : List Nat → Option (List Nat)
  | [] => some []
  | [_] => none
  | a :: b :: rest =>
    match hexDigit a, hexDigit b, hexPairs rest with
    | some x, some y, some tl => some ((16 * x + y) :: tl)
    | _, _, _ => none

/-- Modelled from the spec: `ParseCryptoPAnKey` is not part of the sources
under scrutiny; spec sections 4.1 and 6 say it accepts either a 32-byte raw
key, or a printable form of length at most 66 (64 hex characters after a
`0x` prefix) decoded into 32 bytes.  The argument is a list of ASCII codes;
the result the decoded 32-byte key. -/
def parseCryptoPAnKey (s : List Nat) : Option (List Nat) :=
  if s.length = 32 then some s
  else if s.length = 66 ∧ s.getD 0 0 = 48 ∧ s.getD 1 0 = 120 then hexPairs (s.drop 2)
  else none

/-- The key gate of main(): `CryptoPAnKey` is a zero-initialised 32-byte
buffer (nfanon.c:532); `-K` fills it through `ParseCryptoPAnKey`, exiting 255
on a malformed key (nfanon.c:544-549); afterwards main tests only
`CryptoPAnKey[0] == '\0'` and, when that byte is zero, reports
`Expect -K <key>`, prints usage and exits 255 (nfanon.c:578-582). -/
def mainKeyGate (karg : Option (List Nat)) : Except (Nat × String) (List Nat) :=
  match karg with
  | none => .error (255, "Expect -K <key>")
  | some arg =>
    match parseCryptoPAnKey arg with
    | none => .error (255, "Invalid key for CryptoPAn")
    | some key =>
      if key.getD 0 0 = 0 then .error (255, "Expect -K <key>")
      else .ok key

/- Concrete inputs for witnesses and counterexamples. -/

/-- A concrete instance of the abstract CryptoPAn pair, injective enough to
separate the claims under test. -/
def afTest : AnonFuns where
  anon32 := fun a => a + 1
  anon128 := fun a b => (a + 1, b + 1)

/-- V3 record with a single IPv6 flow element: size 48, one element of type
`EXipv6FlowID` and length 36, srcAddr = (1,0), dstAddr = (9,0). -/
def recC1 : List Nat :=
  [11, 0, 48, 0, 1, 0, 1, 0, 101, 102, 103, 104,
   3, 0, 36, 0,
   1, 2, 3, 4, 5, 6, 7, 8, 9, 10, 11, 12, 13, 14, 15, 16,
   21, 22, 23, 24, 25, 26, 27, 28, 31, 32, 33, 34, 35, 36, 37, 38]

/-- V3 record with an IPv4 flow element and an AS routing element: size 36,
two elements, srcAddr 1, dstAddr 2, srcAS 5, dstAS 6. -/
def recC2 : List Nat :=
  [11, 0, 36, 0, 0, 0, 2, 0, 201, 202, 203, 204,
   2, 0, 12, 0, 1, 0, 0, 0, 2, 0, 0, 0,
   7, 0, 12, 0, 5, 0, 0, 0, 6, 0, 0, 0]

/-- V3 record announcing `size` 20 but holding a single extension element of
length 4, so the walk consumes only 16 of the 20 announced bytes. -/
def recC3 : List Nat :=
  [11, 0, 20, 0, 2, 0, 1, 0, 91, 92, 93, 94,
   0, 0, 4, 0, 81, 82, 83, 84]

/-- V3 record whose `size` field (3) is smaller than the record header. -/
def recC7 : List Nat := [11, 0, 3, 0]

/- Byte-level store/load laws. -/

theorem length_write8 (bs : List Nat) (i v : Nat) : (write8 bs i v).length = bs.length :=
  List.length_set bs i (v % 256)

theorem length_write16 (bs : List Nat) (i v : Nat) : (write16 bs i v).length = bs.length := by
  unfold write16; rw [length_write8, length_write8]

theorem length_write32 (bs : List Nat) (i v : Nat) : (write32 bs i v).length = bs.length := by
  unfold write32; rw [length_write16, length_write16]

theorem length_write64 (bs : List Nat) (i v : Nat) : (write64 bs i v).length = bs.length := by
  unfold write64; rw [length_write32, length_write32]

theorem read8_write8_ne {bs : List Nat} {i j v : Nat} (h : i ≠ j) :
    read8 (write8 bs i v) j = read8 bs j := by
  unfold read8 write8
  rw [List.getD_eq_getElem?_getD, List.getElem?_set_ne h, ← List.getD_eq_getElem?_getD]

theorem read8_write8_self {bs : List Nat} {i v : Nat} (h : i < bs.length) :
    read8 (write8 bs i v) i = v % 256 := by
  unfold read8 write8
  rw [List.getD_eq_getElem?_getD, List.getElem?_set_self h]
  rfl

theorem read8_write16_ne {bs : List Nat} {i j v : Nat} (h : j < i ∨ i + 2 ≤ j) :
    read8 (write16 bs i v) j = read8 bs j := by
  unfold write16
  rw [read8_write8_ne (by omega), read8_write8_ne (by omega)]

theorem read8_write32_ne {bs : List Nat} {i j v : Nat} (h : j < i ∨ i + 4 ≤ j) :
    read8 (write32 bs i v) j = read8 bs j := by
  unfold write32
  rw [read8_write16_ne (by omega), read8_write16_ne (by omega)]

theorem read8_write64_ne {bs : List Nat} {i j v : Nat} (h : j < i ∨ i + 8 ≤ j) :
    read8 (write64 bs i v) j = read8 bs j := by
  unfold write64
  rw [read8_write32_ne (by omega), read8_write32_ne (by omega)]

theorem read16_write16_self {bs : List Nat} {i v : Nat} (h : i + 1 < bs.length) :
    read16 (write16 bs i v) i = v % 65536 := by
  unfold read16 write16
  rw [read8_write8_ne (by omega), read8_write8_self (by omega),
    read8_write8_self (by rw [length_write8]; omega)]
  omega

theorem read16_agree {a b : List Nat} {i : Nat}
    (h : ∀ j, i ≤ j → j < i + 2 → read8 a j = read8 b j) : read16 a i = read16 b i := by
  unfold read16
  rw [h i (by omega) (by omega), h (i + 1) (by omega) (by omega)]

theorem read32_agree {a b : List Nat} {i : Nat}
    (h : ∀ j, i ≤ j → j < i + 4 → read8 a j = read8 b j) : read32 a i = read32 b i := by
  unfold read32 read16
  rw [h i (by omega) (by omega), h (i + 1) (by omega) (by omega),
    h (i + 2) (by omega) (by omega), h (i + 2 + 1) (by omega) (by omega)]

theorem read32_write32_self {bs : List Nat} {i v : Nat} (h : i + 3 < bs.length) :
    read32 (write32 bs i v) i = v % 4294967296 := by
  unfold write32
  have h1 : read16 (write16 (write16 bs i v) (i + 2) (v / 65536)) i = read16 (write16 bs i v) i :=
    read16_agree (fun j hj1 hj2 => read8_write16_ne (by omega))
  unfold read32
  rw [h1, read16_write16_self (by omega),
    read16_write16_self (by rw [length_write16]; omega)]
  omega

theorem read32_write32_ne {bs : List Nat} {i k v : Nat} (h : i + 4 ≤ k ∨ k + 4 ≤ i) :
    read32 (write32 bs k v) i = read32 bs i :=
  read32_agree (fun j hj1 hj2 => read8_write32_ne (by omega))

/- Laws of a single element mutation. -/

theorem length_anonOne32 (af : AnonFuns) (bs : List Nat) (o : Nat) :
    (anonOne32 af bs o).length = bs.length := by
  unfold anonOne32; rw [length_write32]

theorem length_copyAnon128 (af : AnonFuns) (bs : List Nat) (src dst : Nat) :
    (copyAnon128 af bs src dst).length = bs.length := by
  unfold copyAnon128; rw [length_write64, length_write64]

theorem length_zeroPair32 (bs : List Nat) (o1 o2 : Nat) :
    (zeroPair32 bs o1 o2).length = bs.length := by
  unfold zeroPair32; rw [length_write32, length_write32]

theorem frame_anonOne32 {af : AnonFuns} {bs : List Nat} {o j : Nat} (h : j < o ∨ o + 4 ≤ j) :
    read8 (anonOne32 af bs o) j = read8 bs j := by
  unfold anonOne32; rw [read8_write32_ne (by omega)]

theorem frame_copyAnon128 {af : AnonFuns} {bs : List Nat} {src dst j : Nat}
    (h : j < dst ∨ dst + 16 ≤ j) :
    read8 (copyAnon128 af bs src dst) j = read8 bs j := by
  unfold copyAnon128; rw [read8_write64_ne (by omega), read8_write64_ne (by omega)]

theorem frame_zeroPair32 {bs : List Nat} {o1 o2 j : Nat}
    (h1 : j < o1 ∨ o1 + 4 ≤ j) (h2 : j < o2 ∨ o2 + 4 ≤ j) :
    read8 (zeroPair32 bs o1 o2) j = read8 bs j := by
  unfold zeroPair32; rw [read8_write32_ne (by omega), read8_write32_ne (by omega)]

theorem mutateElement_ipv4 (af : AnonFuns) (bs : List Nat) (e : Nat)
    (h : read16 bs e = EXipv4FlowID) :
    mutateElement af bs e = anonOne32 af (anonOne32 af bs (e + 4)) (e + 8) := by
  unfold mutateElement; rw [h]; norm_num

theorem mutateElement_ipv6 (af : AnonFuns) (bs : List Nat) (e : Nat)
    (h : read16 bs e = EXipv6FlowID) :
    mutateElement af bs e = copyAnon128 af (copyAnon128 af bs (e + 4) (e + 4)) (e + 4) (e + 20) := by
  unfold mutateElement; rw [h]; norm_num

theorem mutateElement_asRouting (af : AnonFuns) (bs : List Nat) (e : Nat)
    (h : read16 bs e = EXasRoutingID) :
    mutateElement af bs e = zeroPair32 bs (e + 4) (e + 8) := by
  unfold mutateElement; rw [h]; norm_num

theorem mutateElement_bgpNextHopV4 (af : AnonFuns) (bs : List Nat) (e : Nat)
    (h : read16 bs e = EXbgpNextHopV4ID) :
    mutateElement af bs e = anonOne32 af bs (e + 4) := by
  unfold mutateElement; rw [h]; norm_num

theorem mutateElement_bgpNextHopV6 (af : AnonFuns) (bs : List Nat) (e : Nat)
    (h : read16 bs e = EXbgpNextHopV6ID) :
    mutateElement af bs e = copyAnon128 af bs (e + 4) (e + 4) := by
  unfold mutateElement; rw [h]; norm_num

theorem mutateElement_ipNextHopV4 (af : AnonFuns) (bs : List Nat) (e : Nat)
    (h : read16 bs e = EXipNextHopV4ID) :
    mutateElement af bs e = anonOne32 af bs (e + 4) := by
  unfold mutateElement; rw [h]; norm_num

theorem mutateElement_ipNextHopV6 (af : AnonFuns) (bs : List Nat) (e : Nat)
    (h : read16 bs e = EXipNextHopV6ID) :
    mutateElement af bs e = copyAnon128 af bs (e + 4) (e + 4) := by
  unfold mutateElement; rw [h]; norm_num

theorem mutateElement_ipReceivedV4 (af : AnonFuns) (bs : List Nat) (e : Nat)
    (h : read16 bs e = EXipReceivedV4ID) :
    mutateElement af bs e = anonOne32 af bs (e + 4) := by
  unfold mutateElement; rw [h]; norm_num

theorem mutateElement_ipReceivedV6 (af : AnonFuns) (bs : List Nat) (e : Nat)
    (h : read16 bs e = EXipReceivedV6ID) :
    mutateElement af bs e = copyAnon128 af bs (e + 4) (e + 4) := by
  unfold mutateElement; rw [h]; norm_num

theorem mutateElement_asAdjacent (af : AnonFuns) (bs : List Nat) (e : Nat)
    (h : read16 bs e = EXasAdjacentID) :
    mutateElement af bs e = zeroPair32 bs (e + 4) (e + 8) := by
  unfold mutateElement; rw [h]; norm_num

theorem mutateElement_xlateV4 (af : AnonFuns) (bs : List Nat) (e : Nat)
    (h : read16 bs e = EXnselXlateIPv4ID) :
    mutateElement af bs e = anonOne32 af (anonOne32 af bs (e + 4)) (e + 8) := by
  unfold mutateElement; rw [h]; norm_num

theorem mutateElement_xlateV6 (af : AnonFuns) (bs : List Nat) (e : Nat)
    (h : read16 bs e = EXnselXlateIPv6ID) :
    mutateElement af bs e = copyAnon128 af (copyAnon128 af bs (e + 4) (e + 4)) (e + 20) (e + 20) := by
  unfold mutateElement; rw [h]; norm_num

theorem mutateElement_default (af : AnonFuns) (bs : List Nat) (e : Nat)
    (h1 : read16 bs e ≠ EXipv4FlowID) (h2 : read16 bs e ≠ EXipv6FlowID)
    (h3 : read16 bs e ≠ EXasRoutingID) (h4 : read16 bs e ≠ EXbgpNextHopV4ID)
    (h5 : read16 bs e ≠ EXbgpNextHopV6ID) (h6 : read16 bs e ≠ EXipNextHopV4ID)
    (h7 : read16 bs e ≠ EXipNextHopV6ID) (h8 : read16 bs e ≠ EXipReceivedV4ID)
    (h9 : read16 bs e ≠ EXipReceivedV6ID) (h10 : read16 bs e ≠ EXasAdjacentID)
    (h11 : read16 bs e ≠ EXnselXlateIPv4ID) (h12 : read16 bs e ≠ EXnselXlateIPv6ID) :
    mutateElement af bs e = bs := by
  unfold mutateElement
  rw [if_neg h1, if_neg h2, if_neg h3, if_neg h4, if_neg h5, if_neg h6, if_neg h7, if_neg h8,
    if_neg h9, if_neg h10, if_neg h11, if_neg h12]

theorem extWriteSpan_eq (t : Nat)
    (h1 : t ≠ EXipv4FlowID) (h2 : t ≠ EXipv6FlowID) (h3 : t ≠ EXasRoutingID)
    (h4 : t ≠ EXbgpNextHopV4ID) (h5 : t ≠ EXbgpNextHopV6ID) (h6 : t ≠ EXipNextHopV4ID)
    (h7 : t ≠ EXipNextHopV6ID) (h8 : t ≠ EXipReceivedV4ID) (h9 : t ≠ EXipReceivedV6ID)
    (h10 : t ≠ EXasAdjacentID) (h11 : t ≠ EXnselXlateIPv4ID) (h12 : t ≠ EXnselXlateIPv6ID) :
    extWriteSpan t = 0 := by
  unfold extWriteSpan
  rw [if_neg h1, if_neg h2, if_neg h3, if_neg h4, if_neg h5, if_neg h6, if_neg h7, if_neg h8,
    if_neg h9, if_neg h10, if_neg h11, if_neg h12]

set_option maxHeartbeats 1600000 in
theorem mutate_length (af : AnonFuns) (bs : List Nat) (e : Nat) :
    (mutateElement af bs e).length = bs.length := by
  by_cases h1 : read16 bs e = EXipv4FlowID
  · rw [mutateElement_ipv4 af bs e h1, length_anonOne32, length_anonOne32]
  by_cases h2 : read16 bs e = EXipv6FlowID
  · rw [mutateElement_ipv6 af bs e h2, length_copyAnon128, length_copyAnon128]
  by_cases h3 : read16 bs e = EXasRoutingID
  · rw [mutateElement_asRouting af bs e h3, length_zeroPair32]
  by_cases h4 : read16 bs e = EXbgpNextHopV4ID
  · rw [mutateElement_bgpNextHopV4 af bs e h4, length_anonOne32]
  by_cases h5 : read16 bs e = EXbgpNextHopV6ID
  · rw [mutateElement_bgpNextHopV6 af bs e h5, length_copyAnon128]
  by_cases h6 : read16 bs e = EXipNextHopV4ID
  · rw [mutateElement_ipNextHopV4 af bs e h6, length_anonOne32]
  by_cases h7 : read16 bs e = EXipNextHopV6ID
  · rw [mutateElement_ipNextHopV6 af bs e h7, length_copyAnon128]
  by_cases h8 : read16 bs e = EXipReceivedV4ID
  · rw [mutateElement_ipReceivedV4 af bs e h8, length_anonOne32]
  by_cases h9 : read16 bs e = EXipReceivedV6ID
  · rw [mutateElement_ipReceivedV6 af bs e h9, length_copyAnon128]
  by_cases h10 : read16 bs e = EXasAdjacentID
  · rw [mutateElement_asAdjacent af bs e h10, length_zeroPair32]
  by_cases h11 : read16 bs e = EXnselXlateIPv4ID
  · rw [mutateElement_xlateV4 af bs e h11, length_anonOne32, length_anonOne32]
  by_cases h12 : read16 bs e = EXnselXlateIPv6ID
  · rw [mutateElement_xlateV6 af bs e h12, length_copyAnon128, length_copyAnon128]
  rw [mutateElement_default af bs e h1 h2 h3 h4 h5 h6 h7 h8 h9 h10 h11 h12]

set_option maxHeartbeats 1600000 in
theorem mutate_frame (af : AnonFuns) (bs : List Nat) (e j : Nat)
    (h : j < e + 4 ∨ e + 4 + extWriteSpan (read16 bs e) ≤ j) :
    read8 (mutateElement af bs e) j = read8 bs j := by
  by_cases h1 : read16 bs e = EXipv4FlowID
  · have hs : extWriteSpan (read16 bs e) = 8 := by rw [h1]; decide
    rw [mutateElement_ipv4 af bs e h1,
      frame_anonOne32 (by omega), frame_anonOne32 (by omega)]
  by_cases h2 : read16 bs e = EXipv6FlowID
  · have hs : extWriteSpan (read16 bs e) = 32 := by rw [h2]; decide
    rw [mutateElement_ipv6 af bs e h2,
      frame_copyAnon128 (by omega), frame_copyAnon128 (by omega)]
  by_cases h3 : read16 bs e = EXasRoutingID
  · have hs : extWriteSpan (read16 bs e) = 8 := by rw [h3]; decide
    rw [mutateElement_asRouting af bs e h3, frame_zeroPair32 (by omega) (by omega)]
  by_cases h4 : read16 bs e = EXbgpNextHopV4ID
  · have hs : extWriteSpan (read16 bs e) = 4 := by rw [h4]; decide
    rw [mutateElement_bgpNextHopV4 af bs e h4, frame_anonOne32 (by omega)]
  by_cases h5 : read16 bs e = EXbgpNextHopV6ID
  · have hs : extWriteSpan (read16 bs e) = 16 := by rw [h5]; decide
    rw [mutateElement_bgpNextHopV6 af bs e h5, frame_copyAnon128 (by omega)]
  by_cases h6 : read16 bs e = EXipNextHopV4ID
  · have hs : extWriteSpan (read16 bs e) = 4 := by rw [h6]; decide
    rw [mutateElement_ipNextHopV4 af bs e h6, frame_anonOne32 (by omega)]
  by_cases h7 : read16 bs e = EXipNextHopV6ID
  · have hs : extWriteSpan (read16 bs e) = 16 := by rw [h7]; decide
    rw [mutateElement_ipNextHopV6 af bs e h7, frame_copyAnon128 (by omega)]
  by_cases h8 : read16 bs e = EXipReceivedV4ID
  · have hs : extWriteSpan (read16 bs e) = 4 := by rw [h8]; decide
    rw [mutateElement_ipReceivedV4 af bs e h8, frame_anonOne32 (by omega)]
  by_cases h9 : read16 bs e = EXipReceivedV6ID
  · have hs : extWriteSpan (read16 bs e) = 16 := by rw [h9]; decide
    rw [mutateElement_ipReceivedV6 af bs e h9, frame_copyAnon128 (by omega)]
  by_cases h10 : read16 bs e = EXasAdjacentID
  · have hs : extWriteSpan (read16 bs e) = 8 := by rw [h10]; decide
    rw [mutateElement_asAdjacent af bs e h10, frame_zeroPair32 (by omega) (by omega)]
  by_cases h11 : read16 bs e = EXnselXlateIPv4ID
  · have hs : extWriteSpan (read16 bs e) = 8 := by rw [h11]; decide
    rw [mutateElement_xlateV4 af bs e h11,
      frame_anonOne32 (by omega), frame_anonOne32 (by omega)]
  by_cases h12 : read16 bs e = EXnselXlateIPv6ID
  · have hs : extWriteSpan (read16 bs e) = 32 := by rw [h12]; decide
    rw [mutateElement_xlateV6 af bs e h12,
      frame_copyAnon128 (by omega), frame_copyAnon128 (by omega)]
  rw [mutateElement_default af bs e h1 h2 h3 h4 h5 h6 h7 h8 h9 h10 h11 h12]

theorem mutate_zeroAS (af : AnonFuns) (bs : List Nat) (e : Nat)
    (ht : read16 bs e = EXasRoutingID ∨ read16 bs e = EXasAdjacentID)
    (hl : e + 12 ≤ bs.length) :
    read32 (mutateElement af bs e) (e + 4) = 0 ∧ read32 (mutateElement af bs e) (e + 8) = 0 := by
  have hm : mutateElement af bs e = zeroPair32 bs (e + 4) (e + 8) := by
    rcases ht with h | h
    · exact mutateElement_asRouting af bs e h
    · exact mutateElement_asAdjacent af bs e h
  rw [hm]
  unfold zeroPair32
  constructor
  · rw [read32_write32_ne (by omega), read32_write32_self (by omega)]
  · rw [read32_write32_self (by rw [length_write32]; omega)]

theorem elemOffs_ge (bs : List Nat) :
    ∀ n e, ∀ x ∈ elemOffs bs n e, e ≤ x := by
  intro n
  induction n with
  | zero => intro e x hx; simp [elemOffs] at hx
  | succ n ih =>
    intro e x hx
    simp only [elemOffs, List.mem_cons] at hx
    rcases hx with rfl | hx
    · exact le_rfl
    · have := ih (e + read16 bs (e + 2)) x hx
      omega

set_option maxHeartbeats 1600000 in
/-- Master induction on the element walk: on a data-model conformant record
(`walkWF` on the input bytes `bs`), starting from any buffer `cur` that agrees
with `bs` from the cursor on, the walk succeeds, preserves every byte outside
the listed mutable fields, and zeroes the AS fields of every AS-bearing
element. -/
theorem anonElems_master (af : AnonFuns) (bs : List Nat) :
    ∀ (n e eor : Nat) (cur : List Nat),
      walkWF bs n e eor →
      (∀ j, e ≤ j → read8 cur j = read8 bs j) →
      cur.length = bs.length →
      eor ≤ bs.length →
      ∃ out efin, anonElems af n e eor cur = .ok (out, efin) ∧
        out.length = cur.length ∧
        (∀ j, ¬ inMutRegion bs n e j → read8 out j = read8 cur j) ∧
        (∀ x ∈ elemOffs bs n e,
          (read16 bs x = EXasRoutingID ∨ read16 bs x = EXasAdjacentID) →
          read32 out (x + 4) = 0 ∧ read32 out (x + 8) = 0) := by
  intro n
  induction n with
  | zero =>
    intro e eor cur _ _ _ _
    refine ⟨cur, e, rfl, rfl, fun j _ => rfl, ?_⟩
    intro x hx
    simp [elemOffs] at hx
  | succ n ih =>
    intro e eor cur hwf hagree hlen hfit
    obtain ⟨hh1, hh2, hh3⟩ := hwf e (by simp [elemOffs])
    have hte : read16 cur e = read16 bs e :=
      read16_agree (fun j hj1 hj2 => hagree j (by omega))
    have hlene : read16 cur (e + 2) = read16 bs (e + 2) :=
      read16_agree (fun j hj1 hj2 => hagree j (by omega))
    have hmf : ∀ j, j < e + 4 ∨ e + 4 + extWriteSpan (read16 bs e) ≤ j →
        read8 (mutateElement af cur e) j = read8 cur j := by
      intro j hj
      apply mutate_frame
      rw [hte]
      exact hj
    have hlen1 : (mutateElement af cur e).length = cur.length := mutate_length af cur e
    have hlen16 : read16 (mutateElement af cur e) (e + 2) = read16 bs (e + 2) := by
      rw [read16_agree (fun j hj1 hj2 => hmf j (Or.inl (by omega))), hlene]
    have hstep : anonElems af (n + 1) e eor cur =
        anonElems af n (e + read16 bs (e + 2)) eor (mutateElement af cur e) := by
      simp only [anonElems]
      rw [hlen16, if_neg (by omega)]
    have hwft : walkWF bs n (e + read16 bs (e + 2)) eor := by
      intro x hx
      exact hwf x (by simp only [elemOffs, List.mem_cons]; right; exact hx)
    have hagree1 : ∀ j, e + read16 bs (e + 2) ≤ j →
        read8 (mutateElement af cur e) j = read8 bs j := by
      intro j hj
      rw [hmf j (Or.inr (by omega)), hagree j (by omega)]
    obtain ⟨out, efin, heq, hlo, hfr, hz⟩ :=
      ih (e + read16 bs (e + 2)) eor (mutateElement af cur e) hwft hagree1
        (hlen1.trans hlen) hfit
    refine ⟨out, efin, hstep.trans heq, hlo.trans hlen1, ?_, ?_⟩
    · intro j hj
      have hjtail : ¬ inMutRegion bs n (e + read16 bs (e + 2)) j := by
        intro hc
        apply hj
        unfold inMutRegion at hc ⊢
        obtain ⟨x, hx, hx2⟩ := hc
        exact ⟨x, by simp only [elemOffs, List.mem_cons]; right; exact hx, hx2⟩
      have hjhead : j < e + 4 ∨ e + 4 + extWriteSpan (read16 bs e) ≤ j := by
        by_contra hcon
        push_neg at hcon
        apply hj
        unfold inMutRegion
        exact ⟨e, by simp [elemOffs], by omega⟩
      rw [hfr j hjtail, hmf j hjhead]
    · intro x hx htx
      simp only [elemOffs, List.mem_cons] at hx
      rcases hx with rfl | hx
      · have hspan : extWriteSpan (read16 bs x) = 8 := by
          rcases htx with h | h <;> rw [h] <;> decide
        have hz1 : read32 (mutateElement af cur x) (x + 4) = 0 ∧
            read32 (mutateElement af cur x) (x + 8) = 0 := by
          apply mutate_zeroAS
          · rw [hte]; exact htx
          · omega
        have hag : ∀ j, x + 4 ≤ j → j < x + 12 →
            read8 out j = read8 (mutateElement af cur x) j := by
          intro j hj1 hj2
          apply hfr
          intro hc
          unfold inMutRegion at hc
          obtain ⟨y, hy, hy2⟩ := hc
          have hge := elemOffs_ge bs n (x + read16 bs (x + 2)) y hy
          omega
        constructor
        · rw [read32_agree (fun j hj1 hj2 => hag j (by omega) (by omega)), hz1.1]
        · rw [read32_agree (fun j hj1 hj2 => hag j (by omega) (by omega)), hz1.2]
      · exact hz x hx htx

/-- On success, the cursor of the element walk never moves past `eor`. -/
theorem anonElems_le (af : AnonFuns) :
    ∀ (n e eor : Nat) (cur out : List Nat) (efin : Nat),
      e ≤ eor → anonElems af n e eor cur = .ok (out, efin) → efin ≤ eor := by
  intro n
  induction n with
  | zero =>
    intro e eor cur out efin he h
    simp only [anonElems, Except.ok.injEq, Prod.mk.injEq] at h
    omega
  | succ n ih =>
    intro e eor cur out efin he h
    simp only [anonElems] at h
    by_cases hc : eor < e + read16 (mutateElement af cur e) (e + 2)
    · rw [if_pos hc] at h
      exact absurd h (by simp)
    · rw [if_neg hc] at h
      exact ih _ _ _ _ _ (by omega) h

theorem read8_lt {bs : List Nat} (hb : ∀ b ∈ bs, b < 256) (j : Nat) : read8 bs j < 256 := by
  unfold read8
  rcases Nat.lt_or_ge j bs.length with h | h
  · rw [List.getD_eq_getElem bs 0 h]
    exact hb _ (List.getElem_mem h)
  · rw [List.getD_eq_default bs 0 h]
    omega

theorem read16_lt {bs : List Nat} (hb : ∀ b ∈ bs, b < 256) (i : Nat) : read16 bs i < 65536 := by
  have h1 := read8_lt hb i
  have h2 := read8_lt hb (i + 1)
  unfold read16
  omega

/-- Lift of `anonElems_master` through `AnonRecord`: on a conformant record
the call succeeds with no log, only the flag word and the element write
regions change, and the AS fields are zeroed. -/
theorem anonRecord_master (af : AnonFuns) (bs : List Nat) (base : Nat)
    (hsz : 12 ≤ read16 bs (base + 2))
    (hwf : walkWF bs (read16 bs (base + 6)) (base + 12) (base + read16 bs (base + 2)))
    (hfit : base + read16 bs (base + 2) ≤ bs.length) :
    ∃ out efin,
      AnonRecord af bs base = .ok ⟨out, efin - base, none⟩ ∧
      out.length = bs.length ∧
      (∀ j, ¬ inMutRegion bs (read16 bs (base + 6)) (base + 12) j →
        read8 out j = read8 (setAnonFlag bs base) j) ∧
      (∀ x ∈ elemOffs bs (read16 bs (base + 6)) (base + 12),
        (read16 bs x = EXasRoutingID ∨ read16 bs x = EXasAdjacentID) →
        read32 out (x + 4) = 0 ∧ read32 out (x + 8) = 0) := by
  have hlen1 : (setAnonFlag bs base).length = bs.length := length_write16 bs (base + 4) _
  have hagree : ∀ j, base + 12 ≤ j → read8 (setAnonFlag bs base) j = read8 bs j :=
    fun j hj => read8_write16_ne (by omega)
  have hnum : read16 (setAnonFlag bs base) (base + 6) = read16 bs (base + 6) :=
    read16_agree (fun j hj1 hj2 => read8_write16_ne (by omega))
  obtain ⟨out, efin, heq, hlo, hfr, hz⟩ :=
    anonElems_master af bs (read16 bs (base + 6)) (base + 12) (base + read16 bs (base + 2))
      (setAnonFlag bs base) hwf hagree hlen1 hfit
  refine ⟨out, efin, ?_, hlo.trans hlen1, hfr, hz⟩
  unfold AnonRecord
  rw [if_neg (by omega), hnum, heq]

/-- C2: for every data-model conformant V3 record (each element carries its
mutated fields inside its declared length and lies inside the record, spec
section 3), `AnonRecord` succeeds without an error log, preserves the byte
count, leaves every byte outside the listed mutable fields and outside the
flags word bit-identical, and changes the flags word only by or-ing in the
ANON bit. -/
theorem anonRecord_frame_outside_mutables (af : AnonFuns) (bs : List Nat) (base : Nat)
    (hb : ∀ b ∈ bs, b < 256)
    (hsz : recordHeaderV3Size ≤ read16 bs (base + 2))
    (hwf : walkWF bs (read16 bs (base + 6)) (base + 12) (base + read16 bs (base + 2)))
    (hfit : base + read16 bs (base + 2) ≤ bs.length) :
    ∃ r : AnonOut, AnonRecord af bs base = .ok r ∧ r.log = none ∧
      r.bytes.length = bs.length ∧
      (∀ j, ¬ inMutRegion bs (read16 bs (base + 6)) (base + 12) j →
        j ≠ base + 4 → j ≠ base + 5 → read8 r.bytes j = read8 bs j) ∧
      read16 r.bytes (base + 4) = Nat.lor (read16 bs (base + 4)) V3_FLAG_ANON := by
  have hsz12 : 12 ≤ read16 bs (base + 2) := hsz
  obtain ⟨out, efin, heq, hlen, hfr, _⟩ := anonRecord_master af bs base hsz12 hwf hfit
  refine ⟨⟨out, efin - base, none⟩, heq, rfl, hlen, ?_, ?_⟩
  · intro j hj hj4 hj5
    rw [hfr j hj]
    unfold setAnonFlag
    exact read8_write16_ne (by omega)
  · have hout4 : ∀ j, base + 4 ≤ j → j < base + 6 →
        read8 out j = read8 (setAnonFlag bs base) j := by
      intro j h1 h2
      apply hfr
      intro hc
      unfold inMutRegion at hc
      obtain ⟨y, hy, hy2⟩ := hc
      have := elemOffs_ge bs (read16 bs (base + 6)) (base + 12) y hy
      omega
    have hlt : Nat.lor (read16 bs (base + 4)) V3_FLAG_ANON < 65536 := by
      have h1 := read16_lt hb (base + 4)
      have h2 : (65536 : Nat) = 2 ^ 16 := by norm_num
      rw [h2] at h1 ⊢
      exact Nat.or_lt_two_pow h1 (by norm_num)
    calc read16 out (base + 4)
        = read16 (setAnonFlag bs base) (base + 4) :=
          read16_agree (fun j h1 h2 => hout4 j (by omega) (by omega))
      _ = Nat.lor (read16 bs (base + 4)) V3_FLAG_ANON % 65536 := by
          unfold setAnonFlag
          exact read16_write16_self (by omega)
      _ = Nat.lor (read16 bs (base + 4)) V3_FLAG_ANON := Nat.mod_eq_of_lt hlt

/-- C6: for every data-model conformant V3 record containing an AS routing
extension or an AS adjacency extension at element offset `x`, `AnonRecord`
sets both 32-bit AS fields of that extension (srcAS and dstAS, or
nextAdjacentAS and prevAdjacentAS) to zero in the output. -/
theorem anonRecord_zeroes_as (af : AnonFuns) (bs : List Nat) (base x : Nat)
    (hsz : recordHeaderV3Size ≤ read16 bs (base + 2))
    (hwf : walkWF bs (read16 bs (base + 6)) (base + 12) (base + read16 bs (base + 2)))
    (hfit : base + read16 bs (base + 2) ≤ bs.length)
    (hx : x ∈ elemOffs bs (read16 bs (base + 6)) (base + 12))
    (htx : read16 bs x = EXasRoutingID ∨ read16 bs x = EXasAdjacentID) :
    ∃ r : AnonOut, AnonRecord af bs base = .ok r ∧
      read32 r.bytes (x + 4) = 0 ∧ read32 r.bytes (x + 8) = 0 := by
  have hsz12 : 12 ≤ read16 bs (base + 2) := hsz
  obtain ⟨out, efin, heq, _, _, hz⟩ := anonRecord_master af bs base hsz12 hwf hfit
  obtain ⟨hz1, hz2⟩ := hz x hx htx
  exact ⟨⟨out, efin - base, none⟩, heq, hz1, hz2⟩

/-- C7: a V3 record whose `size` field is smaller than the V3 record header
makes `AnonRecord` log `v3Record - unexpected size` and return with the
record bytes entirely unmodified; in particular the ANON flag is not set. -/
theorem anonRecord_skips_undersized (af : AnonFuns) (bs : List Nat) (base : Nat)
    (h : read16 bs (base + 2) < recordHeaderV3Size) :
    AnonRecord af bs base = .ok ⟨bs, recordHeaderV3Size, some unexpectedSizeMsg⟩ := by
  unfold AnonRecord
  rw [if_pos h]

/-- C3 (amended): the element walk of `AnonRecord` reports corruption only
when the cursor runs past the record end; whenever the walk returns
normally, the consumed byte count (header plus element lengths) never
exceeds `v3Record->size`, but it may fall short of it, and a shortfall is
not reported. -/
theorem anonRecord_consumed_le (af : AnonFuns) (bs : List Nat) (base : Nat) (r : AnonOut)
    (hsz : recordHeaderV3Size ≤ read16 bs (base + 2))
    (h : AnonRecord af bs base = .ok r) :
    r.consumed ≤ read16 bs (base + 2) := by
  have hsz12 : 12 ≤ read16 bs (base + 2) := hsz
  unfold AnonRecord at h
  rw [if_neg (by omega)] at h
  cases heq : anonElems af (read16 (setAnonFlag bs base) (base + 6)) (base + 12)
      (base + read16 bs (base + 2)) (setAnonFlag bs base) with
  | error err =>
    rw [heq] at h
    exact absurd h (by simp)
  | ok p =>
    obtain ⟨out, efin⟩ := p
    rw [heq] at h
    have hle := anonElems_le af _ _ _ _ _ _ (by omega) heq
    have hr : r = ⟨out, efin - base, none⟩ := by
      simp only [Except.ok.injEq] at h
      exact h.symm
    rw [hr]
    simp only []
    omega

theorem except_map_error {ε α β : Type} (f : α → β) (x : Except ε α) (e : ε)
    (h : Except.map f x = .error e) : x = .error e := by
  cases x with
  | error a => simpa [Except.map] using h
  | ok v => simp [Except.map] at h

theorem anonElems_error_code (af : AnonFuns) :
    ∀ (n e eor : Nat) (cur : List Nat) (err : Nat × String),
      anonElems af n e eor cur = .error err → err = (255, eorMsg) := by
  intro n
  induction n with
  | zero =>
    intro e eor cur err h
    simp [anonElems] at h
  | succ n ih =>
    intro e eor cur err h
    simp only [anonElems] at h
    by_cases hc : eor < e + read16 (mutateElement af cur e) (e + 2)
    · rw [if_pos hc] at h
      simp only [Except.error.injEq] at h
      exact h.symm
    · rw [if_neg hc] at h
      exact ih _ _ _ _ h

theorem anonRecord_error_code (af : AnonFuns) (bs : List Nat) (base : Nat) (err : Nat × String)
    (h : AnonRecord af bs base = .error err) : err = (255, eorMsg) := by
  unfold AnonRecord at h
  by_cases hc : read16 bs (base + 2) < 12
  · rw [if_pos hc] at h
    exact absurd h (by simp)
  · rw [if_neg hc] at h
    cases heq : anonElems af (read16 (setAnonFlag bs base) (base + 6)) (base + 12)
        (base + read16 bs (base + 2)) (setAnonFlag bs base) with
    | error e2 =>
      rw [heq] at h
      simp only [Except.error.injEq] at h
      rw [← h]
      exact anonElems_error_code af _ _ _ _ _ heq
    | ok p =>
      obtain ⟨o, ef⟩ := p
      rw [heq] at h
      exact absurd h (by simp)

theorem workerRecords_error_code (af : AnonFuns) (numWorkers self blockSize : Nat) :
    ∀ (n i off sumSize : Nat) (bs : List Nat) (err : Nat × String),
      workerRecords af numWorkers self blockSize n i off sumSize bs = .error err →
      err.1 = 255 := by
  intro n
  induction n with
  | zero =>
    intro i off sumSize bs err h
    simp [workerRecords] at h
  | succ n ih =>
    intro i off sumSize bs err h
    simp only [workerRecords] at h
    by_cases hc : blockSize < sumSize + read16 bs (off + 2) ∨ read16 bs (off + 2) < 4
    · rw [if_pos hc] at h
      simp only [Except.error.injEq] at h
      rw [← h]
    · rw [if_neg hc] at h
      cases hs : (if i % numWorkers = self then
          (if read16 bs off = V3Record then Except.map AnonOut.bytes (AnonRecord af bs off)
            else .ok bs)
          else .ok bs) with
      | error e2 =>
        rw [hs] at h
        simp only [Except.error.injEq] at h
        rw [← h]
        by_cases hsel : i % numWorkers = self
        · rw [if_pos hsel] at hs
          by_cases hty : read16 bs off = V3Record
          · rw [if_pos hty] at hs
            have := anonRecord_error_code af bs off e2 (except_map_error _ _ _ hs)
            rw [this]
          · rw [if_neg hty] at hs
            exact absurd hs (by simp)
        · rw [if_neg hsel] at hs
          exact absurd hs (by simp)
      | ok bs1 =>
        rw [hs] at h
        exact ih _ _ _ _ _ h

/-- C4: a structural bound violation is fatal with exit code 255: a record
whose accumulated sizes exceed the block size or whose size is smaller than
the record header makes the worker walk abort with the corruption log and
code 255; an extension element cursor advanced past the record end makes the
element walk abort with the pointer-error log and code 255; and every abort
of the worker walk carries exit code 255. -/
theorem worker_corruption_aborts_255 :
    (∀ (af : AnonFuns) (numWorkers self blockSize n i off sumSize : Nat) (bs : List Nat),
      blockSize < sumSize + read16 bs (off + 2) ∨ read16 bs (off + 2) < 4 →
      workerRecords af numWorkers self blockSize (n + 1) i off sumSize bs =
        .error (255, corruptMsg)) ∧
    (∀ (af : AnonFuns) (n e eor : Nat) (bs : List Nat),
      eor < e + read16 (mutateElement af bs e) (e + 2) →
      anonElems af (n + 1) e eor bs = .error (255, eorMsg)) ∧
    (∀ (af : AnonFuns) (numWorkers self blockSize n i off sumSize : Nat) (bs : List Nat)
      (err : Nat × String),
      workerRecords af numWorkers self blockSize n i off sumSize bs = .error err →
      err.1 = 255) := by
  refine ⟨?_, ?_, ?_⟩
  · intro af N s bsz n i off sum bs hv
    simp only [workerRecords]
    rw [if_pos hv]
  · intro af n e eor bs hv
    simp only [anonElems]
    rw [if_pos hv]
  · intro af N s bsz n i off sum bs err h
    exact workerRecords_error_code af N s bsz n i off sum bs err h

theorem length_pureSelPass (af : AnonFuns) (N s : Nat) :
    ∀ (rs : List (List Nat)) (i : Nat), (pureSelPass af N s i rs).length = rs.length := by
  intro rs
  induction rs with
  | nil => intro i; rfl
  | cons r rs ih => intro i; simp [pureSelPass, ih]

theorem getD_pureSelPass (af : AnonFuns) (N s : Nat) :
    ∀ (rs : List (List Nat)) (i k : Nat), k < rs.length →
      (pureSelPass af N s i rs).getD k [] =
        (if (i + k) % N = s then anonApply af (rs.getD k []) else rs.getD k []) := by
  intro rs
  induction rs with
  | nil => intro i k hk; simp at hk
  | cons r rs ih =>
    intro i k hk
    cases k with
    | zero => simp [pureSelPass]
    | succ k =>
      simp only [pureSelPass, List.getD_cons_succ]
      rw [ih (i + 1) k (by simpa using hk)]
      have heq : i + 1 + k = i + (k + 1) := by omega
      rw [heq]

theorem workerPassRecs_ok (af : AnonFuns) (N s : Nat) :
    ∀ (rs : List (List Nat)) (i : Nat),
      (∀ k, k < rs.length → (i + k) % N = s → isOkE (applyRecord af (rs.getD k [])) = true) →
      workerPassRecs af N s i rs = .ok (pureSelPass af N s i rs) := by
  intro rs
  induction rs with
  | nil => intro i _; rfl
  | cons r rs ih =>
    intro i h
    have hshift : ∀ k, k < rs.length → (i + 1 + k) % N = s →
        isOkE (applyRecord af (rs.getD k [])) = true := by
      intro k hk hmod
      have := h (k + 1) (by simp; omega) (by rw [show i + (k + 1) = i + 1 + k from by omega]; exact hmod)
      simpa using this
    simp only [workerPassRecs, pureSelPass]
    by_cases hsel : i % N = s
    · rw [if_pos hsel, if_pos hsel]
      have h0 := h 0 (by simp) (by simpa using hsel)
      cases happ : applyRecord af r with
      | error e =>
        have h0' : isOkE (applyRecord af r) = true := by simpa using h0
        rw [happ] at h0'
        simp [isOkE] at h0'
      | ok r1 =>
        show Except.map (fun l => r1 :: l) (workerPassRecs af N s (i + 1) rs) =
          .ok (anonApply af r :: pureSelPass af N s (i + 1) rs)
        rw [ih (i + 1) hshift]
        have har : anonApply af r = r1 := by unfold anonApply; rw [happ]
        rw [har]
        simp [Except.map]
    · rw [if_neg hsel, if_neg hsel]
      rw [ih (i + 1) hshift]
      simp [Except.map]

theorem poolPassGo_ok (af : AnonFuns) (N : Nat) :
    ∀ (ss : List Nat) (rs : List (List Nat)),
      ss.Nodup →
      (∀ k, k < rs.length → k % N ∈ ss → isOkE (applyRecord af (rs.getD k [])) = true) →
      ∃ res, poolPassGo af N ss rs = .ok res ∧ res.length = rs.length ∧
        ∀ k, k < rs.length →
          res.getD k [] =
            (if k % N ∈ ss then anonApply af (rs.getD k []) else rs.getD k []) := by
  intro ss
  induction ss with
  | nil =>
    intro rs _ _
    exact ⟨rs, rfl, rfl, fun k hk => by simp⟩
  | cons s ss ih =>
    intro rs hnd hok
    obtain ⟨hs_notmem, hnd'⟩ := List.nodup_cons.mp hnd
    have hpass : workerPassRecs af N s 0 rs = .ok (pureSelPass af N s 0 rs) := by
      apply workerPassRecs_ok
      intro k hk hmod
      exact hok k hk (by simp only [Nat.zero_add] at hmod; simp [hmod])
    have hlenp := length_pureSelPass af N s rs 0
    have hok' : ∀ k, k < (pureSelPass af N s 0 rs).length → k % N ∈ ss →
        isOkE (applyRecord af ((pureSelPass af N s 0 rs).getD k [])) = true := by
      intro k hk hmem
      have hklt : k < rs.length := by omega
      have hkne : k % N ≠ s := fun hcon => hs_notmem (hcon ▸ hmem)
      rw [getD_pureSelPass af N s rs 0 k hklt, if_neg (by simpa using hkne)]
      exact hok k hklt (List.mem_cons_of_mem s hmem)
    obtain ⟨res, hres, hreslen, hresget⟩ := ih (pureSelPass af N s 0 rs) hnd' hok'
    refine ⟨res, ?_, by omega, ?_⟩
    · simp only [poolPassGo, hpass, hres]
    · intro k hk
      have hklt' : k < (pureSelPass af N s 0 rs).length := by omega
      rw [hresget k hklt', getD_pureSelPass af N s rs 0 k hk]
      simp only [Nat.zero_add]
      by_cases hks : k % N = s
      · rw [if_pos hks, if_neg (fun hcon => hs_notmem (hks ▸ hcon)),
          if_pos (by simp [hks])]
      · by_cases hkss : k % N ∈ ss
        · rw [if_neg hks, if_pos hkss, if_pos (List.mem_cons_of_mem s hkss)]
        · rw [if_neg hks, if_neg hkss, if_neg (by simp [hks, hkss])]

theorem poolPass_ok (af : AnonFuns) (N : Nat) (rs : List (List Nat)) (hN : 1 ≤ N)
    (hok : ∀ k, k < rs.length → isOkE (applyRecord af (rs.getD k [])) = true) :
    ∃ res, poolPass af N rs = .ok res ∧ res.length = rs.length ∧
      ∀ k, k < rs.length → res.getD k [] = anonApply af (rs.getD k []) := by
  obtain ⟨res, h1, h2, h3⟩ :=
    poolPassGo_ok af N (List.range N) rs (List.nodup_range N) (fun k hk _ => hok k hk)
  refine ⟨res, h1, h2, fun k hk => ?_⟩
  rw [h3 k hk, if_pos (List.mem_range.mpr (Nat.mod_lt k (by omega)))]

/-- C5: the index-modulo-`N` partition of worker() assigns each record to
exactly one worker and each record's transformation does not depend on which
worker performs it, so for a block whose records all transform without
aborting, the bytes produced by the pool are identical for every worker-pool
size in 1..8. -/
theorem poolPass_worker_count_independent (af : AnonFuns) (rs : List (List Nat)) (N M : Nat)
    (hN1 : 1 ≤ N) (hN8 : N ≤ 8) (hM1 : 1 ≤ M) (hM8 : M ≤ 8)
    (hok : ∀ k, k < rs.length → isOkE (applyRecord af (rs.getD k [])) = true) :
    poolPass af N rs = poolPass af M rs := by
  obtain ⟨res1, e1, l1, g1⟩ := poolPass_ok af N rs hN1 hok
  obtain ⟨res2, e2, l2, g2⟩ := poolPass_ok af M rs hM1 hok
  rw [e1, e2]
  have hll : res1.length = res2.length := by omega
  have : res1 = res2 := by
    apply List.ext_getElem hll
    intro i h1 h2
    have hi : i < rs.length := by omega
    have hg := (g1 i hi).trans (g2 i hi).symm
    rwa [List.getD_eq_getElem res1 [] h1, List.getD_eq_getElem res2 [] h2] at hg
  rw [this]

/-- C8: a data block whose type tag is neither `DATA_BLOCK_TYPE_2` nor
`DATA_BLOCK_TYPE_3` is written to the output byte-identically, without being
dispatched to the worker pool and without any byte of it being modified. -/
theorem processDataBlock_passthrough (af : AnonFuns) (numWorkers : Nat) (b : DataBlock)
    (h2 : b.typ ≠ DATA_BLOCK_TYPE_2) (h3 : b.typ ≠ DATA_BLOCK_TYPE_3) :
    processDataBlock af numWorkers b = .ok (b, false) := by
  unfold processDataBlock
  rw [if_pos ⟨h2, h3⟩]

theorem processFilesLoop_report_no_signal (inPlace : Bool) :
    ∀ files : List FileRun, (processFilesLoop inPlace files).1 ≠ [] →
      (processFilesLoop inPlace files).2 = false := by
  intro files
  induction files with
  | nil => intro h; simp [processFilesLoop] at h
  | cons f rest ih =>
    intro h
    simp only [processFilesLoop] at h ⊢
    by_cases h1 : ¬f.openOutOk
    · rw [if_pos h1]
    · rw [if_neg h1] at h ⊢
      by_cases h2 : inPlace ∧ ¬f.renameOk
      · rw [if_pos h2]
      · rw [if_neg h2] at h ⊢
        exact ih h

theorem processDataModel_report_no_signal (inPlace : Bool) (files : List FileRun)
    (h : (processDataModel inPlace files).1 ≠ []) :
    (processDataModel inPlace files).2 = false := by
  unfold processDataModel at h ⊢
  by_cases he : files.isEmpty
  · rw [if_pos he]
  · rw [if_neg he] at h ⊢
    exact processFilesLoop_report_no_signal inPlace files h

/-- C9 counterexample: with successful start-up, on a single in-place input
whose rename fails, the run logs the rename error, yet the exit outcome is
`none`: process_data returns without signalling the workers, main blocks
forever joining them, and the process never exits — in particular it does
not exit with a non-zero code, refuting the claim. -/
theorem reported_failure_no_exit_counterexample :
    (processDataModel true [⟨true, false⟩]).1 = ["rename() error"] ∧
    nfanonExit ⟨true, true, true, true⟩ true [⟨true, false⟩] = none :=
  ⟨rfl, rfl⟩

/-- C9 (amended): a rename failure in in-place mode is logged with errno
text and aborts the file loop, but the early return skips the worker
termination signal of nfanon.c:412-416, so main blocks forever in
WaitWorkersDone/pthread_join and the process never exits at all after a
reported processing failure; exit code 0 is reached exactly when the file
loop completed normally and signalled the workers, and only start-up
failures (and corruption aborts) exit non-zero. -/
theorem renameFailure_reported_then_no_exit (env : SetupEnv) (inPlace : Bool)
    (files : List FileRun)
    (hsetup : env.haveKey = true ∧ env.fileListOk = true ∧ env.barrierOk = true ∧
      env.workersOk = true) :
    (nfanonExit env inPlace files = some 0 ↔ (processDataModel inPlace files).2 = true) ∧
    ((processDataModel inPlace files).1 ≠ [] → nfanonExit env inPlace files = none) := by
  obtain ⟨h1, h2, h3, h4⟩ := hsetup
  have hni : nfanonExit env inPlace files =
      (if (processDataModel inPlace files).2 then some 0 else none) := by
    unfold nfanonExit
    rw [h1, h2, h3, h4]
    simp
  refine ⟨?_, ?_⟩
  · cases hb : (processDataModel inPlace files).2 <;> simp [hni, hb]
  · intro h
    have hf := processDataModel_report_no_signal inPlace files h
    simp [hni, hf]

/-- C10: the missing-key check of main tests only the first byte of the
parsed key buffer, so any well-formed key accepted by the parser whose first
decoded byte is zero is reported as `Expect -K <key>` with exit 255, exactly
as if no key had been supplied. -/
theorem keyGate_rejects_zero_leading_key (arg key : List Nat)
    (hp : parseCryptoPAnKey arg = some key) (h0 : key.getD 0 0 = 0) :
    mainKeyGate (some arg) = .error (255, "Expect -K <key>") ∧
    mainKeyGate (some arg) = mainKeyGate none := by
  have h0' : key[0]?.getD 0 = 0 := by
    rw [← List.getD_eq_getElem?_getD]
    exact h0
  refine ⟨?_, ?_⟩ <;> simp [mainKeyGate, hp, h0']

/- Concrete outputs used by the closed counterexamples below. -/

/-- `AnonRecord afTest recC1 0`: ANON flag set, srcAddr = (2,1), and dstAddr
= (3,2) = anon128(anon128(srcAddr-in)) instead of anon128(dstAddr-in). -/
def recC1out : List Nat :=
  [11, 0, 48, 0, 5, 0, 1, 0, 101, 102, 103, 104,
   3, 0, 36, 0,
   2, 2, 3, 4, 5, 6, 7, 8, 10, 10, 11, 12, 13, 14, 15, 16,
   3, 2, 3, 4, 5, 6, 7, 8, 11, 10, 11, 12, 13, 14, 15, 16]

/-- `AnonRecord afTest recC3 0`: only the ANON flag byte changes. -/
def recC3out : List Nat :=
  [11, 0, 20, 0, 6, 0, 1, 0, 91, 92, 93, 94,
   0, 0, 4, 0, 81, 82, 83, 84]

/-- C1 (code evaluated at the failing input): on a V3 record with one IPv6
flow element, srcAddr = (1,0) and dstAddr = (9,0), the walker stores
anon128(srcAddr) into srcAddr, but then stores anon128 of the freshly
anonymized srcAddr into dstAddr: the output dstAddr equals
anon128(anon128(srcAddr-in)) and differs from anon128(dstAddr-in). -/
theorem ipv6_dstAddr_derived_from_srcAddr :
    AnonRecord afTest recC1 0 = .ok ⟨recC1out, 48, none⟩ ∧
    (read64 recC1out 16, read64 recC1out 24) =
      afTest.anon128 (read64 recC1 16) (read64 recC1 24) ∧
    (read64 recC1out 32, read64 recC1out 40) =
      afTest.anon128 (afTest.anon128 (read64 recC1 16) (read64 recC1 24)).1
        (afTest.anon128 (read64 recC1 16) (read64 recC1 24)).2 ∧
    (read64 recC1out 32, read64 recC1out 40) ≠
      afTest.anon128 (read64 recC1 32) (read64 recC1 40) := by
  refine ⟨rfl, by decide, by decide, by decide⟩

/-- C2 witness: the concrete two-element record `recC2` satisfies the
conformance hypotheses, and its padding byte at offset 8 is preserved. -/
theorem anonRecord_frame_witness :
    ∃ r : AnonOut, AnonRecord afTest recC2 0 = .ok r ∧ read8 r.bytes 8 = read8 recC2 8 := by
  obtain ⟨r, heq, _, _, hfr, _⟩ :=
    anonRecord_frame_outside_mutables afTest recC2 0 (by decide) (by decide) (by decide)
      (by decide)
  exact ⟨r, heq, hfr 8 (by decide) (by decide) (by decide)⟩

/-- C6 witness: on `recC2`, whose second element is an AS routing extension
at offset 24, both AS fields come out zero. -/
theorem anonRecord_zeroes_as_witness :
    ∃ r : AnonOut, AnonRecord afTest recC2 0 = .ok r ∧
      read32 r.bytes 28 = 0 ∧ read32 r.bytes 32 = 0 := by
  obtain ⟨r, heq, h1, h2⟩ :=
    anonRecord_zeroes_as afTest recC2 0 24 (by decide) (by decide) (by decide) (by decide)
      (by decide)
  exact ⟨r, heq, h1, h2⟩

/-- C7 witness: a record with `size = 3` is returned unmodified with the
unexpected-size log. -/
theorem anonRecord_skips_undersized_witness :
    AnonRecord afTest recC7 0 = .ok ⟨recC7, recordHeaderV3Size, some unexpectedSizeMsg⟩ :=
  anonRecord_skips_undersized afTest recC7 0 (by decide)

/-- C3 counterexample: on `recC3`, which announces `size = 20` but whose one
element consumes only 16 bytes, the walker returns normally (no corruption
error, no log) although the consumed total 16 deviates from the announced
size 20: the deviation is not reported. -/
theorem anonRecord_accepts_shortfall :
    AnonRecord afTest recC3 0 = .ok ⟨recC3out, 16, none⟩ ∧
    read16 recC3 2 = 20 ∧ (16 : Nat) ≠ 20 :=
  ⟨rfl, by decide, by decide⟩

/-- C3 (amended) witness: on `recC3` the walk succeeds and the consumed
total 16 is at most the announced size 20. -/
theorem anonRecord_consumed_le_witness :
    ∃ r : AnonOut, AnonRecord afTest recC3 0 = .ok r ∧ r.consumed ≤ read16 recC3 2 := by
  have heq : AnonRecord afTest recC3 0 = .ok ⟨recC3out, 16, none⟩ := rfl
  exact ⟨_, heq, anonRecord_consumed_le afTest recC3 0 _ (by decide) heq⟩

/-- Record area whose first record announces size 5 inside a block of
size 3. -/
def blkC4 : List Nat := [0, 0, 5, 0]

/-- C4 witness: the first record of `blkC4` overruns the block, and the
worker walk aborts with the corruption log and exit code 255. -/
theorem worker_corruption_witness :
    workerRecords afTest 1 0 3 1 0 0 0 blkC4 = .error (255, corruptMsg) :=
  worker_corruption_aborts_255.1 afTest 1 0 3 0 0 0 0 blkC4 (by decide)

/-- C5 witness: pools of 2 and of 3 workers produce the same bytes on a
one-record block. -/
theorem poolPass_worker_count_independent_witness :
    poolPass afTest 2 [recC2] = poolPass afTest 3 [recC2] :=
  poolPass_worker_count_independent afTest [recC2] 2 3 (by decide) (by decide) (by decide)
    (by decide) (by decide)

/-- A block with an unknown type tag. -/
def blkC8 : DataBlock := ⟨5, 7, 3, [1, 2, 3]⟩

/-- C8 witness: a block of type 5 passes through unmodified and
undispatched. -/
theorem processDataBlock_passthrough_witness :
    processDataBlock afTest 4 blkC8 = .ok (blkC8, false) :=
  processDataBlock_passthrough afTest 4 blkC8 (by decide) (by decide)

/-- C9 (amended) witness: with successful start-up and two in-place inputs
whose second rename fails, the loop reports the failure and the run has no
exit outcome at all. -/
theorem renameFailure_no_exit_witness :
    nfanonExit ⟨true, true, true, true⟩ true [⟨true, true⟩, ⟨true, false⟩] = none :=
  (renameFailure_reported_then_no_exit ⟨true, true, true, true⟩ true
    [⟨true, true⟩, ⟨true, false⟩] ⟨rfl, rfl, rfl, rfl⟩).2
    (by simp [processDataModel, processFilesLoop])

/-- The printable key `0x00` followed by 62 `1` characters: well-formed, and
its first decoded byte is zero. -/
def keyArgC10 : List Nat := [48, 120, 48, 48] ++ List.replicate 62 49

/-- C10 witness: the concrete key `keyArgC10` parses to a 32-byte key whose
first byte is 0, and the gate reports `Expect -K <key>` exactly as with no
key at all. -/
theorem keyGate_rejects_zero_leading_key_witness :
    mainKeyGate (some keyArgC10) = .error (255, "Expect -K <key>") ∧
    mainKeyGate (some keyArgC10) = mainKeyGate none :=
  keyGate_rejects_zero_leading_key keyArgC10 (0 :: List.replicate 31 17)
    (by decide) (by decide)

end Nfanon
